import Mathlib

/-!
Verification of the RoguelikeRust turn-based simulation core.

A shallow embedding of the item systems (`src/inventory_system.rs`) and the
turn state machine / level transition (`src/main.rs`), with theorems checking
the natural-language specification's claims against the code.

Entities are modelled as `Nat`.  Component storages are modelled as functions
`Nat → Option C` (a storage lookup `storage.get(e)`), plus an explicit list of
live entities for storage joins.  Rust panics (`unwrap`, `expect`, index out of
bounds) are modelled by returning `none` from the embedded system run.
-/

/-- A 2-d point (`rltk::Point`, fields `x`, `y`). -/
structure Pt where
  x : Int
  y : Int
deriving DecidableEq, Repr

/-- The map interface consumed by the item-use system (`Map` is an external
collaborator: only `width`, `height`, `xy_idx` and `tile_content` are used by
the embedded code). -/
structure MapM where
  width : Int
  height : Int
  xy_idx : Int → Int → Nat
  tile_content : Nat → List Nat

/-- Intent component `WantsToUseItem { item, target : Option<Point> }`. -/
structure WantsToUseItem where
  item : Nat
  target : Option Pt
deriving DecidableEq, Repr

/-- Ownership edge `InBackpack { owner }`. -/
structure InBackpack where
  owner : Nat
deriving DecidableEq, Repr

/-- Ownership edge `Equipped { owner, slot }`; the equipment slot is modelled
as a `Nat`. -/
structure Equipped where
  owner : Nat
  slot : Nat
deriving DecidableEq, Repr

/-- Component `CombatStats`, restricted to the fields the embedded systems
read and write. -/
structure CombatStats where
  max_hp : Int
  hp : Int
deriving DecidableEq, Repr

/-- The slice of world state read and written by `ItemUseSystem::run`
(`src/inventory_system.rs`, lines 63-245).  Deletion of entities via
`entities.delete` is deferred in specs, so it is recorded in `deleted`. -/
@[ext] structure UseState where
  gamelog : List String
  wants_use : List (Nat × WantsToUseItem)
  entities : List Nat
  names : Nat → Option String
  consumables : Nat → Bool
  healing : Nat → Option Int
  inflict_damage : Nat → Option Int
  suffer_damage : Nat → Option (List Int)
  confused : Nat → Option Int
  aoe : Nat → Option Int
  combat_stats : Nat → Option CombatStats
  equippable : Nat → Option Nat
  equipped : Nat → Option Equipped
  backpack : Nat → Option InBackpack
  deleted : List Nat

/-- Modelled from the spec: `SufferDamage::new_damage` (in `components.rs`,
which is not part of the provided sources) appends a pending damage amount to
the victim's accumulation, creating the component if absent ("`SufferDamage`
accumulates multiple damage events before a later system commits them"). -/
def newDamage (suffer : Nat → Option (List Int)) (victim : Nat) (amount : Int) :
    Nat → Option (List Int) :=
  fun e =>
    if e = victim then
      match suffer victim with
      | some xs => some (xs ++ [amount])
      | none => some [amount]
    else suffer e

/-- Targeting resolution (`src/inventory_system.rs`, lines 73-108).
`fov` is the external `rltk::field_of_view`. -/
def resolveTargets (player : Nat) (m : MapM) (fov : Pt → Int → MapM → List Pt)
    (aoe : Nat → Option Int) (useitem : WantsToUseItem) : List Nat :=
  match useitem.target with
  | none => [player]
  | some target =>
    match aoe useitem.item with
    | none =>
      -- single target in tile
      m.tile_content (m.xy_idx target.x target.y)
    | some radius =>
      -- AoE
      let blast_tiles :=
        (fov target radius m).filter
          (fun p => 0 < p.x && p.x < m.width - 1 && 0 < p.y && p.y < m.height - 1)
      blast_tiles.foldl (fun acc p => acc ++ m.tile_content (m.xy_idx p.x p.y)) []

/-- The items the equip branch scans for eviction: the join over
`(&entities, &equipped, &names)` filtered to `owner == target && slot ==
target_slot` (`src/inventory_system.rs`, lines 121-132). -/
def toUnequip (st : UseState) (target target_slot : Nat) : List Nat :=
  st.entities.filter (fun e =>
    match st.equipped e, st.names e with
    | some ae, some _ => ae.owner == target && ae.slot == target_slot
    | _, _ => false)

/-- The unequip loop (`src/inventory_system.rs`, lines 133-138): remove the
`Equipped` edge and insert an `InBackpack { owner: target }` edge for every
collected item. -/
def unequipAll (target : Nat) (st : UseState) (items : List Nat) : UseState :=
  items.foldl (fun acc it =>
    { acc with
        equipped := fun e => if e = it then none else acc.equipped e
        backpack := fun e => if e = it then some ⟨target⟩ else acc.backpack e }) st

/-- The equip branch (`src/inventory_system.rs`, lines 110-149).  `targets[0]`
on an empty target vector is a Rust index-out-of-bounds panic, modelled as
`none`; so is the `unwrap` of a missing name for the player's equip line. -/
def equipBranch (player : Nat) (st : UseState) (useitem : WantsToUseItem)
    (targets : List Nat) : Option UseState :=
  match st.equippable useitem.item with
  | none => some st
  | some target_slot =>
    match targets with
    | [] => none
    | target :: _ =>
      let to_unequip := toUnequip st target target_slot
      let log1 :=
        if target = player then
          st.gamelog ++ to_unequip.map
            (fun e => "You unequip " ++ ((st.names e).getD "") ++ ".")
        else st.gamelog
      let st1 := unequipAll target { st with gamelog := log1 } to_unequip
      let st2 :=
        { st1 with
            equipped := fun e =>
              if e = useitem.item then some ⟨target, target_slot⟩ else st1.equipped e
            backpack := fun e =>
              if e = useitem.item then none else st1.backpack e }
      if target = player then
        match st.names useitem.item with
        | none => none
        | some nm => some { st2 with gamelog := st2.gamelog ++ ["You equip " ++ nm ++ "."] }
      else some st2

/-- The healing loop over targets (`src/inventory_system.rs`, lines 159-172).
The boolean argument threads `used_item`. -/
def healLoop (player e_entity item : Nat) (heal_amount : Int) :
    List Nat → UseState → Bool → Option (UseState × Bool)
  | [], st, used => some (st, used)
  | t :: ts, st, used =>
    match st.combat_stats t with
    | none => healLoop player e_entity item heal_amount ts st used
    | some stats =>
      let st1 :=
        { st with
            combat_stats := fun x =>
              if x = t then some ⟨stats.max_hp, min stats.max_hp (stats.hp + heal_amount)⟩
              else st.combat_stats x }
      if e_entity = player then
        match st1.names item with
        | none => none
        | some nm =>
          healLoop player e_entity item heal_amount ts
            { st1 with gamelog := st1.gamelog ++
                ["You use the " ++ nm ++ ", healing " ++ toString heal_amount ++ " hp"] }
            true
      else healLoop player e_entity item heal_amount ts st1 true

/-- The damage loop over targets (`src/inventory_system.rs`, lines 183-195). -/
def damageLoop (player e_entity item : Nat) (dmg : Int) :
    List Nat → UseState → Bool → Option (UseState × Bool)
  | [], st, used => some (st, used)
  | mob :: ts, st, used =>
    let st1 := { st with suffer_damage := newDamage st.suffer_damage mob dmg }
    if e_entity = player then
      match st1.names mob, st1.names item with
      | some mob_name, some item_name =>
        damageLoop player e_entity item dmg ts
          { st1 with gamelog := st1.gamelog ++
              ["You use " ++ item_name ++ " on " ++ mob_name ++ ", inflicting " ++
                toString dmg ++ " hp."] }
          true
      | _, _ => none
    else damageLoop player e_entity item dmg ts st1 true

/-- The confusion collection loop (`src/inventory_system.rs`, lines 208-220):
queues `(mob, turns)` pairs (the queue is `targets` itself since `turns` is
constant), narrates, and sets `used_item`. -/
def confusionLogLoop (player e_entity item : Nat) :
    List Nat → UseState → Bool → Option (UseState × Bool)
  | [], st, used => some (st, used)
  | mob :: ts, st, used =>
    if e_entity = player then
      match st.names mob, st.names item with
      | some mob_name, some item_name =>
        confusionLogLoop player e_entity item ts
          { st with gamelog := st.gamelog ++
              ["You use " ++ item_name ++ " on " ++ mob_name ++ ", confusing them."] }
          true
      | _, _ => none
    else confusionLogLoop player e_entity item ts st true

/-- The deferred confusion inserts (`src/inventory_system.rs`, lines 224-227). -/
def applyConfusion (turns : Int) (targets : List Nat) (cf : Nat → Option Int) :
    Nat → Option Int :=
  targets.foldl (fun acc mob => fun x => if x = mob then some turns else acc x) cf

/-- Healing branch dispatch (`src/inventory_system.rs`, lines 152-174). -/
def healStep (player e_entity item : Nat) (targets : List Nat)
    (st : UseState) (used : Bool) : Option (UseState × Bool) :=
  match st.healing item with
  | none => some (st, used)
  | some heal_amount => healLoop player e_entity item heal_amount targets st used

/-- Damage branch dispatch (`src/inventory_system.rs`, lines 176-197). -/
def damageStep (player e_entity item : Nat) (targets : List Nat)
    (st : UseState) (used : Bool) : Option (UseState × Bool) :=
  match st.inflict_damage item with
  | none => some (st, used)
  | some dmg => damageLoop player e_entity item dmg targets st used

/-- Confusion branch (`src/inventory_system.rs`, lines 199-227): the item's
`Confusion` component is read before any insert; inserts are applied after the
collection loop. -/
def confusionStep (player e_entity item : Nat) (targets : List Nat)
    (st : UseState) (used : Bool) : Option (UseState × Bool) :=
  match st.confused item with
  | none => some (st, used)
  | some turns =>
    (confusionLogLoop player e_entity item targets st used).map
      (fun r => ({ r.1 with confused := applyConfusion turns targets r.1.confused }, r.2))

/-- Consumption (`src/inventory_system.rs`, lines 229-241): delete the item
entity if it was used and is consumable. -/
def consumeStep (item : Nat) (st : UseState) (used : Bool) : UseState :=
  if used then
    if st.consumables item then { st with deleted := st.deleted ++ [item] } else st
  else st

/-- Processing of one use-intent, in the source's branch order: targeting,
equip, healing, damage, confusion, consumption
(`src/inventory_system.rs`, lines 69-241). -/
def processUseItem (player : Nat) (m : MapM) (fov : Pt → Int → MapM → List Pt)
    (st : UseState) (e_entity : Nat) (u : WantsToUseItem) : Option UseState :=
  let targets := resolveTargets player m fov st.aoe u
  (equipBranch player st u targets).bind (fun stA =>
    (healStep player e_entity u.item targets stA false).bind (fun r2 =>
      (damageStep player e_entity u.item targets r2.1 r2.2).bind (fun r3 =>
        (confusionStep player e_entity u.item targets r3.1 r3.2).map (fun r4 =>
          consumeStep u.item r4.1 r4.2))))

/-- The per-intent loop of `ItemUseSystem::run`: the join over
`(&entities, &wants_use)`. -/
def useLoop (player : Nat) (m : MapM) (fov : Pt → Int → MapM → List Pt) :
    List (Nat × WantsToUseItem) → UseState → Option UseState
  | [], st => some st
  | p :: rest, st =>
    (processUseItem player m fov st p.1 p.2).bind (useLoop player m fov rest)

/-- Embedding of `ItemUseSystem::run` (`src/inventory_system.rs`, lines
63-245): process every pending use-intent, then clear the intent storage. -/
def itemUseRun (player : Nat) (m : MapM) (fov : Pt → Int → MapM → List Pt)
    (st : UseState) : Option UseState :=
  (useLoop player m fov st.wants_use st).map (fun st' => { st' with wants_use := [] })

/-- Intent component `WantsToPickupItem { collected_by, item }`. -/
structure WantsToPickupItem where
  collected_by : Nat
  item : Nat
deriving DecidableEq, Repr

/-- The slice of world state read and written by `ItemCollectionSystem::run`
(`src/inventory_system.rs`, lines 20-37). -/
structure PickupState where
  gamelog : List String
  wants_pickup : List WantsToPickupItem
  positions : Nat → Option Pt
  names : Nat → Option String
  backpack : Nat → Option InBackpack

/-- The per-intent loop of `ItemCollectionSystem::run`
(`src/inventory_system.rs`, lines 24-34): remove the item's `Position`, insert
`InBackpack { owner: collected_by }`, and narrate when the collector is the
player (the name lookup there is an `unwrap`: a missing name panics). -/
def pickupLoop (player : Nat) :
    List WantsToPickupItem → PickupState → Option PickupState
  | [], st => some st
  | p :: ps, st =>
    let st1 :=
      { st with
          positions := fun e => if e = p.item then none else st.positions e
          backpack := fun e => if e = p.item then some ⟨p.collected_by⟩ else st.backpack e }
    if p.collected_by = player then
      match st.names p.item with
      | none => none
      | some nm =>
        pickupLoop player ps
          { st1 with gamelog := st1.gamelog ++ ["You pick up the " ++ nm ++ "."] }
    else pickupLoop player ps st1

/-- Embedding of `ItemCollectionSystem::run` (`src/inventory_system.rs`,
lines 20-37): process every pickup intent, then clear the intent storage
unconditionally. -/
def itemCollectionRun (player : Nat) (st : PickupState) : Option PickupState :=
  (pickupLoop player st.wants_pickup st).map (fun st' => { st' with wants_pickup := [] })

/-- The slice of world state read and written by the level transition
(`src/main.rs`, lines 85-183). -/
structure LState where
  player_entity : Nat
  entities : List Nat
  playerComp : Nat → Bool
  backpack : Nat → Option InBackpack
  equipped : Nat → Option Equipped
  combat_stats : Nat → Option CombatStats
  gamelog : List String

/-- Whether the source's scan keeps an entity on level change: it has the
`Player` component, or a backpack edge owned by the player, or an equipped
edge owned by the player (`src/main.rs`, lines 94-123). -/
def keptOnLevelChange (s : LState) (e : Nat) : Bool :=
  s.playerComp e ||
  (match s.backpack e with
   | some bp => bp.owner == s.player_entity
   | none => false) ||
  (match s.equipped e with
   | some eq => eq.owner == s.player_entity
   | none => false)

/-- Embedding of `State::entities_to_remove_on_level_change` (`src/main.rs`,
lines 85-126). -/
def entities_to_remove_on_level_change (s : LState) : List Nat :=
  s.entities.filter (fun e => !keptOnLevelChange s e)

/-- Embedding of `State::goto_next_level` (`src/main.rs`, lines 128-182):
delete the
non-retained entities, regenerate the map and spawn its rooms (external map
generation and spawning are abstracted: `spawned` is the list of entities the
spawner creates), reposition the player (positions are outside `LState`; the
claims do not mention them), mark the viewshed dirty (likewise external),
append the narration line, and heal the player to at least half of max hp. -/
def goto_next_level (spawned : List Nat) (s : LState) : LState :=
  let to_delete := entities_to_remove_on_level_change s
  let s1 := { s with entities := (s.entities.filter (fun e => !to_delete.contains e)) ++ spawned }
  let s2 := { s1 with gamelog :=
      s1.gamelog ++ ["You descend to the next level, and take a moment to heal."] }
  match s2.combat_stats s2.player_entity with
  | none => s2
  | some stats =>
    { s2 with combat_stats := fun e =>
        if e = s2.player_entity then
          some ⟨stats.max_hp, max stats.hp (Int.tdiv stats.max_hp 2)⟩
        else s2.combat_stats e }

/-- Selection payload of the main menu (`RunState`, `src/main.rs`, lines
34-47, carries it in its `MainMenu` variant). -/
inductive MainMenuSelection where
  | NewGame
  | LoadGame
  | Quit
deriving DecidableEq, Repr

/-- The run-state union driving `State::tick`. -/
inductive RunStateM where
  | AwaitingInput
  | PreRun
  | PlayerTurn
  | MonsterTurn
  | ShowInventory
  | ShowRemoveItem
  | ShowTargeting (range : Int) (item : Nat)
  | MainMenu (menu_selection : MainMenuSelection)
  | SaveGame
  | QuitGame
  | NextLevel
deriving DecidableEq, Repr

/-- Result type `gui::ItemMenuResult` (the gui module is an external
collaborator). -/
inductive ItemMenuResult where
  | Cancel
  | NoResponse
  | Selected
deriving DecidableEq, Repr

/-- Result type `gui::MainMenuResult`. -/
inductive MainMenuResult where
  | NoSelection (selected : MainMenuSelection)
  | Selected (selected : MainMenuSelection)
deriving DecidableEq, Repr

/-- The world-state interface `State::tick` drives.  `W` abstracts the ECS
world; the individual systems, `maintain`, `delete_the_dead`, the gui calls
and the persistence calls are the external functions the tick orchestrates
(`src/main.rs`, lines 56-83 and 185-358). -/
structure Engine (W : Type) where
  visibility : W → W
  monster_ai : W → W
  map_indexing : W → W
  melee_combat : W → W
  damage : W → W
  item_collection : W → W
  item_use : W → W
  item_remove : W → W
  maintain : W → W
  delete_the_dead : W → W
  player_input : W → RunStateM × W
  show_inventory : W → ItemMenuResult × Option Nat
  remove_item_menu : W → ItemMenuResult × Option Nat
  ranged_target : Int → W → ItemMenuResult × Option Pt
  main_menu : W → MainMenuResult
  get_ranged : W → Nat → Option Int
  player_ent : W → Nat
  insert_use_intent : W → Nat → WantsToUseItem → W
  insert_remove_intent : W → Nat → Nat → W
  save_game : W → W
  load_game : W → W
  next_level : W → W

/-- Embedding of `State::run_systems` (`src/main.rs`, lines 56-83): the
fixed-order system pipeline followed by the structural-edit flush
(`maintain`). -/
def runSystems {W : Type} (E : Engine W) (w : W) : W :=
  E.maintain (E.item_remove (E.item_use (E.item_collection (E.damage
    (E.melee_combat (E.map_indexing (E.monster_ai (E.visibility w))))))))

/-- Embedding of `State::tick` (`src/main.rs`, lines 187-358), minus the
pure rendering
prologue.  `none` models process exit (`Quit` in the main menu) or a panic
(the `unwrap` of a menu selection that is absent).  The final
`delete_the_dead` pass runs on every tick. -/
def tick {W : Type} (E : Engine W) (rs : RunStateM) (w : W) :
    Option (RunStateM × W) :=
  let step : Option (RunStateM × W) :=
    match rs with
    | .PreRun =>
      some (.AwaitingInput, E.maintain (runSystems E w))
    | .AwaitingInput =>
      let w1 := E.maintain (runSystems E w)
      some (E.player_input w1)
    | .PlayerTurn =>
      some (.MonsterTurn, E.maintain (runSystems E w))
    | .MonsterTurn =>
      some (.AwaitingInput, E.maintain (runSystems E w))
    | .ShowInventory =>
      match E.show_inventory w with
      | (.Cancel, _) => some (.AwaitingInput, w)
      | (.NoResponse, _) => some (.ShowInventory, w)
      | (.Selected, none) => none
      | (.Selected, some item_entity) =>
        match E.get_ranged w item_entity with
        | some range => some (.ShowTargeting range item_entity, w)
        | none =>
          some (.PlayerTurn,
            E.insert_use_intent w (E.player_ent w) ⟨item_entity, none⟩)
    | .ShowRemoveItem =>
      match E.remove_item_menu w with
      | (.Cancel, _) => some (.AwaitingInput, w)
      | (.NoResponse, _) => some (.ShowRemoveItem, w)
      | (.Selected, none) => none
      | (.Selected, some item_entity) =>
        some (.PlayerTurn, E.insert_remove_intent w (E.player_ent w) item_entity)
    | .ShowTargeting range item =>
      match E.ranged_target range w with
      | (.Cancel, _) => some (.AwaitingInput, w)
      | (.NoResponse, _) => some (.ShowTargeting range item, w)
      | (.Selected, tgt) =>
        some (.PlayerTurn, E.insert_use_intent w (E.player_ent w) ⟨item, tgt⟩)
    | .MainMenu _ =>
      match E.main_menu w with
      | .NoSelection selected => some (.MainMenu selected, w)
      | .Selected .NewGame => some (.PreRun, w)
      | .Selected .LoadGame => some (.AwaitingInput, E.load_game w)
      | .Selected .Quit => none
    | .SaveGame => some (.AwaitingInput, E.save_game w)
    | .QuitGame => some (.MainMenu .NewGame, w)
    | .NextLevel => some (.PreRun, E.next_level w)
  step.map (fun r => (r.1, E.delete_the_dead r.2))

/-! Section: Helper lemmas about the equip branch -/

theorem mem_toUnequip {st : UseState} {t slot x : Nat} :
    x ∈ toUnequip st t slot ↔
      x ∈ st.entities ∧
        (∃ ae, st.equipped x = some ae ∧ ae.owner = t ∧ ae.slot = slot) ∧
        (st.names x).isSome := by
  unfold toUnequip
  rw [List.mem_filter]
  constructor
  · rintro ⟨hx, hcond⟩
    refine ⟨hx, ?_⟩
    cases he : st.equipped x with
    | none => rw [he] at hcond; cases hn : st.names x <;> rw [hn] at hcond <;> simp at hcond
    | some ae =>
      cases hn : st.names x with
      | none => rw [he, hn] at hcond; simp at hcond
      | some nm =>
        rw [he, hn] at hcond
        simp only [Bool.and_eq_true, beq_iff_eq] at hcond
        exact ⟨⟨ae, rfl, hcond.1, hcond.2⟩, by simp [hn]⟩
  · rintro ⟨hx, ⟨ae, he, ho, hs⟩, hn⟩
    refine ⟨hx, ?_⟩
    rw [he]
    cases hnm : st.names x with
    | none => rw [hnm] at hn; simp at hn
    | some nm => simp [ho, hs]

theorem unequipAll_eq (t : Nat) (st : UseState) (L : List Nat) :
    unequipAll t st L =
      { st with
          equipped := fun e => if e ∈ L then none else st.equipped e
          backpack := fun e => if e ∈ L then some ⟨t⟩ else st.backpack e } := by
  induction L generalizing st with
  | nil =>
    ext1 <;> simp [unequipAll]
  | cons a L ih =>
    show unequipAll t _ L = _
    rw [ih]
    ext1 <;> try rfl
    · funext e
      by_cases h1 : e ∈ L <;> by_cases h2 : e = a <;> simp [h1, h2]
    · funext e
      by_cases h1 : e ∈ L <;> by_cases h2 : e = a <;> simp [h1, h2]

theorem equipBranch_frame {player : Nat} {st st' : UseState} {u : WantsToUseItem}
    {tg : List Nat} (h : equipBranch player st u tg = some st') :
    st'.combat_stats = st.combat_stats ∧ st'.suffer_damage = st.suffer_damage ∧
    st'.confused = st.confused ∧ st'.names = st.names ∧ st'.entities = st.entities ∧
    st'.healing = st.healing ∧ st'.inflict_damage = st.inflict_damage ∧
    st'.consumables = st.consumables ∧ st'.aoe = st.aoe ∧
    st'.equippable = st.equippable ∧ st'.deleted = st.deleted ∧
    st'.wants_use = st.wants_use := by
  unfold equipBranch at h
  cases heq : st.equippable u.item with
  | none =>
    rw [heq] at h
    simp only [Option.some.injEq] at h
    subst h
    exact ⟨rfl, rfl, rfl, rfl, rfl, rfl, rfl, rfl, rfl, rfl, rfl, rfl⟩
  | some slot =>
    rw [heq] at h
    cases tg with
    | nil => simp at h
    | cons t rest =>
      simp only [unequipAll_eq] at h
      by_cases hp : t = player
      · rw [if_pos hp] at h
        cases hn : st.names u.item with
        | none => rw [hn] at h; simp at h
        | some nm =>
          rw [hn] at h
          simp only [Option.some.injEq] at h
          subst h
          exact ⟨rfl, rfl, rfl, rfl, rfl, rfl, rfl, rfl, rfl, rfl, rfl, rfl⟩
      · rw [if_neg hp] at h
        simp only [Option.some.injEq] at h
        subst h
        exact ⟨rfl, rfl, rfl, rfl, rfl, rfl, rfl, rfl, rfl, rfl, rfl, rfl⟩

theorem equipBranch_some_edges {player : Nat} {st st' : UseState} {u : WantsToUseItem}
    {slot t : Nat} {rest : List Nat}
    (hslot : st.equippable u.item = some slot)
    (h : equipBranch player st u (t :: rest) = some st') :
    (∀ x, st'.equipped x =
        if x = u.item then some ⟨t, slot⟩
        else if x ∈ toUnequip st t slot then none else st.equipped x) ∧
    (∀ x, st'.backpack x =
        if x = u.item then none
        else if x ∈ toUnequip st t slot then some ⟨t⟩ else st.backpack x) := by
  unfold equipBranch at h
  rw [hslot] at h
  simp only [unequipAll_eq] at h
  by_cases hp : t = player
  · rw [if_pos hp] at h
    cases hn : st.names u.item with
    | none => rw [hn] at h; simp at h
    | some nm =>
      rw [hn] at h
      simp only [Option.some.injEq] at h
      subst h
      exact ⟨fun x => rfl, fun x => rfl⟩
  · rw [if_neg hp] at h
    simp only [Option.some.injEq] at h
    subst h
    exact ⟨fun x => rfl, fun x => rfl⟩

theorem equipBranch_none_equippable {player : Nat} {st : UseState} {u : WantsToUseItem}
    {tg : List Nat} (hne : st.equippable u.item = none) :
    equipBranch player st u tg = some st := by
  unfold equipBranch
  rw [hne]

theorem equipBranch_empty_targets {player : Nat} {st : UseState} {u : WantsToUseItem}
    {slot : Nat} (hslot : st.equippable u.item = some slot) :
    equipBranch player st u [] = none := by
  unfold equipBranch
  rw [hslot]

/-! Section: Helper lemmas about the healing loop -/

theorem healLoop_frame {player e item : Nat} {amt : Int} :
    ∀ (ts : List Nat) (st : UseState) (used : Bool) (r : UseState × Bool),
      healLoop player e item amt ts st used = some r →
      r.1.equipped = st.equipped ∧ r.1.backpack = st.backpack ∧
      r.1.suffer_damage = st.suffer_damage ∧ r.1.confused = st.confused ∧
      r.1.names = st.names ∧ r.1.entities = st.entities ∧
      r.1.healing = st.healing ∧ r.1.inflict_damage = st.inflict_damage ∧
      r.1.consumables = st.consumables ∧ r.1.aoe = st.aoe ∧
      r.1.equippable = st.equippable ∧ r.1.deleted = st.deleted ∧
      r.1.wants_use = st.wants_use := by
  intro ts
  induction ts with
  | nil =>
    intro st used r h
    simp only [healLoop, Option.some.injEq] at h
    subst h
    exact ⟨rfl, rfl, rfl, rfl, rfl, rfl, rfl, rfl, rfl, rfl, rfl, rfl, rfl⟩
  | cons t ts ih =>
    intro st used r h
    rw [healLoop] at h
    cases hcs : st.combat_stats t with
    | none => rw [hcs] at h; exact ih st used r h
    | some stats =>
      simp only [hcs] at h
      by_cases he : e = player
      · rw [if_pos he] at h
        cases hn : st.names item with
        | none => simp [hn] at h
        | some nm =>
          simp only [hn] at h
          have hh := ih _ true r h
          exact hh
      · rw [if_neg he] at h
        have hh := ih _ true r h
        exact hh

theorem healLoop_used_true {player e item : Nat} {amt : Int} :
    ∀ (ts : List Nat) (st : UseState) (r : UseState × Bool),
      healLoop player e item amt ts st true = some r → r.2 = true := by
  intro ts
  induction ts with
  | nil =>
    intro st r h
    simp only [healLoop, Option.some.injEq] at h
    subst h
    rfl
  | cons t ts ih =>
    intro st r h
    rw [healLoop] at h
    cases hcs : st.combat_stats t with
    | none => rw [hcs] at h; exact ih st r h
    | some stats =>
      simp only [hcs] at h
      by_cases he : e = player
      · rw [if_pos he] at h
        cases hn : st.names item with
        | none => simp [hn] at h
        | some nm => simp only [hn] at h; exact ih _ r h
      · rw [if_neg he] at h
        exact ih _ r h

theorem healLoop_used {player e item : Nat} {amt : Int} :
    ∀ (ts : List Nat) (st : UseState) (used : Bool) (r : UseState × Bool),
      healLoop player e item amt ts st used = some r →
      r.2 = (used || ts.any (fun t => (st.combat_stats t).isSome)) := by
  intro ts
  induction ts with
  | nil =>
    intro st used r h
    simp only [healLoop, Option.some.injEq] at h
    subst h
    simp
  | cons t ts ih =>
    intro st used r h
    rw [healLoop] at h
    cases hcs : st.combat_stats t with
    | none =>
      rw [hcs] at h
      rw [ih st used r h]
      simp [hcs]
    | some stats =>
      simp only [hcs] at h
      by_cases he : e = player
      · rw [if_pos he] at h
        cases hn : st.names item with
        | none => simp [hn] at h
        | some nm =>
          simp only [hn] at h
          rw [healLoop_used_true ts _ r h]
          simp [hcs]
      · rw [if_neg he] at h
        rw [healLoop_used_true ts _ r h]
        simp [hcs]

theorem healLoop_combat_notmem {player e item : Nat} {amt : Int} :
    ∀ (ts : List Nat) (st : UseState) (used : Bool) (r : UseState × Bool) (x : Nat),
      x ∉ ts → healLoop player e item amt ts st used = some r →
      r.1.combat_stats x = st.combat_stats x := by
  intro ts
  induction ts with
  | nil =>
    intro st used r x _ h
    simp only [healLoop, Option.some.injEq] at h
    subst h
    rfl
  | cons t ts ih =>
    intro st used r x hx h
    have hxt : x ≠ t := fun hc => hx (hc ▸ List.mem_cons_self t ts)
    have hxts : x ∉ ts := fun hc => hx (List.mem_cons_of_mem t hc)
    rw [healLoop] at h
    cases hcs : st.combat_stats t with
    | none => rw [hcs] at h; exact ih st used r x hxts h
    | some stats =>
      simp only [hcs] at h
      by_cases he : e = player
      · rw [if_pos he] at h
        cases hn : st.names item with
        | none => simp [hn] at h
        | some nm =>
          simp only [hn] at h
          rw [ih _ true r x hxts h]
          simp [hxt]
      · rw [if_neg he] at h
        rw [ih _ true r x hxts h]
        simp [hxt]

theorem healLoop_combat_mem {player e item : Nat} {amt : Int} :
    ∀ (ts : List Nat) (st : UseState) (used : Bool) (r : UseState × Bool) (t : Nat)
      (s : CombatStats),
      ts.Nodup → t ∈ ts → st.combat_stats t = some s →
      healLoop player e item amt ts st used = some r →
      r.1.combat_stats t = some ⟨s.max_hp, min s.max_hp (s.hp + amt)⟩ := by
  intro ts
  induction ts with
  | nil => intro _ _ _ _ _ _ hmem; exact absurd hmem (List.not_mem_nil _)
  | cons a ts ih =>
    intro st used r t s hnd hmem hcs h
    rw [healLoop] at h
    rcases List.mem_cons.mp hmem with rfl | hts
    · simp only [hcs] at h
      have hnotin : t ∉ ts := (List.nodup_cons.mp hnd).1
      by_cases he : e = player
      · rw [if_pos he] at h
        cases hn : st.names item with
        | none => simp [hn] at h
        | some nm =>
          simp only [hn] at h
          rw [healLoop_combat_notmem ts _ true r t hnotin h]
          simp
      · rw [if_neg he] at h
        rw [healLoop_combat_notmem ts _ true r t hnotin h]
        simp
    · have hta : t ≠ a := fun hc => (List.nodup_cons.mp hnd).1 (hc ▸ hts)
      have hnd' : ts.Nodup := (List.nodup_cons.mp hnd).2
      cases hca : st.combat_stats a with
      | none => rw [hca] at h; exact ih st used r t s hnd' hts hcs h
      | some sa =>
        simp only [hca] at h
        by_cases he : e = player
        · rw [if_pos he] at h
          cases hn : st.names item with
          | none => simp [hn] at h
          | some nm =>
            simp only [hn] at h
            refine ih _ true r t s hnd' hts ?_ h
            simp [hta, hcs]
        · rw [if_neg he] at h
          refine ih _ true r t s hnd' hts ?_ h
          simp [hta, hcs]

/-! Section: Helper lemmas about the damage loop -/

theorem newDamage_self (s : Nat → Option (List Int)) (v : Nat) (a : Int) :
    newDamage s v a v = some ((s v).getD [] ++ [a]) := by
  unfold newDamage
  cases h : s v <;> simp [h]

theorem newDamage_other {s : Nat → Option (List Int)} {v x : Nat} {a : Int}
    (hx : x ≠ v) : newDamage s v a x = s x := by
  unfold newDamage
  simp [hx]

theorem damageLoop_frame {player e item : Nat} {dmg : Int} :
    ∀ (ts : List Nat) (st : UseState) (used : Bool) (r : UseState × Bool),
      damageLoop player e item dmg ts st used = some r →
      r.1.equipped = st.equipped ∧ r.1.backpack = st.backpack ∧
      r.1.combat_stats = st.combat_stats ∧ r.1.confused = st.confused ∧
      r.1.names = st.names ∧ r.1.entities = st.entities ∧
      r.1.healing = st.healing ∧ r.1.inflict_damage = st.inflict_damage ∧
      r.1.consumables = st.consumables ∧ r.1.aoe = st.aoe ∧
      r.1.equippable = st.equippable ∧ r.1.deleted = st.deleted ∧
      r.1.wants_use = st.wants_use := by
  intro ts
  induction ts with
  | nil =>
    intro st used r h
    simp only [damageLoop, Option.some.injEq] at h
    subst h
    exact ⟨rfl, rfl, rfl, rfl, rfl, rfl, rfl, rfl, rfl, rfl, rfl, rfl, rfl⟩
  | cons mob ts ih =>
    intro st used r h
    simp only [damageLoop] at h
    by_cases he : e = player
    · rw [if_pos he] at h
      cases hmn : st.names mob with
      | none => simp [hmn] at h
      | some mob_name =>
        cases hin : st.names item with
        | none => simp [hmn, hin] at h
        | some item_name =>
          simp only [hmn, hin] at h
          have hh := ih _ true r h
          exact hh
    · rw [if_neg he] at h
      have hh := ih _ true r h
      exact hh

theorem damageLoop_used_true {player e item : Nat} {dmg : Int} :
    ∀ (ts : List Nat) (st : UseState) (r : UseState × Bool),
      damageLoop player e item dmg ts st true = some r → r.2 = true := by
  intro ts
  induction ts with
  | nil =>
    intro st r h
    simp only [damageLoop, Option.some.injEq] at h
    subst h
    rfl
  | cons mob ts ih =>
    intro st r h
    simp only [damageLoop] at h
    by_cases he : e = player
    · rw [if_pos he] at h
      cases hmn : st.names mob with
      | none => simp [hmn] at h
      | some mob_name =>
        cases hin : st.names item with
        | none => simp [hmn, hin] at h
        | some item_name =>
          simp only [hmn, hin] at h
          exact ih _ r h
    · rw [if_neg he] at h
      exact ih _ r h

theorem damageLoop_used {player e item : Nat} {dmg : Int} :
    ∀ (ts : List Nat) (st : UseState) (used : Bool) (r : UseState × Bool),
      damageLoop player e item dmg ts st used = some r →
      r.2 = (used || !ts.isEmpty) := by
  intro ts
  cases ts with
  | nil =>
    intro st used r h
    simp only [damageLoop, Option.some.injEq] at h
    subst h
    simp
  | cons mob ts =>
    intro st used r h
    simp only [damageLoop] at h
    by_cases he : e = player
    · rw [if_pos he] at h
      cases hmn : st.names mob with
      | none => simp [hmn] at h
      | some mob_name =>
        cases hin : st.names item with
        | none => simp [hmn, hin] at h
        | some item_name =>
          simp only [hmn, hin] at h
          rw [damageLoop_used_true ts _ r h]
          simp
    · rw [if_neg he] at h
      rw [damageLoop_used_true ts _ r h]
      simp

theorem damageLoop_suffer_notmem {player e item : Nat} {dmg : Int} :
    ∀ (ts : List Nat) (st : UseState) (used : Bool) (r : UseState × Bool) (x : Nat),
      x ∉ ts → damageLoop player e item dmg ts st used = some r →
      r.1.suffer_damage x = st.suffer_damage x := by
  intro ts
  induction ts with
  | nil =>
    intro st used r x _ h
    simp only [damageLoop, Option.some.injEq] at h
    subst h
    rfl
  | cons mob ts ih =>
    intro st used r x hx h
    have hxm : x ≠ mob := fun hc => hx (hc ▸ List.mem_cons_self mob ts)
    have hxts : x ∉ ts := fun hc => hx (List.mem_cons_of_mem mob hc)
    simp only [damageLoop] at h
    by_cases he : e = player
    · rw [if_pos he] at h
      cases hmn : st.names mob with
      | none => simp [hmn] at h
      | some mob_name =>
        cases hin : st.names item with
        | none => simp [hmn, hin] at h
        | some item_name =>
          simp only [hmn, hin] at h
          rw [ih _ true r x hxts h]
          exact newDamage_other hxm
    · rw [if_neg he] at h
      rw [ih _ true r x hxts h]
      exact newDamage_other hxm

theorem damageLoop_suffer_mem {player e item : Nat} {dmg : Int} :
    ∀ (ts : List Nat) (st : UseState) (used : Bool) (r : UseState × Bool) (t : Nat),
      ts.Nodup → t ∈ ts →
      damageLoop player e item dmg ts st used = some r →
      r.1.suffer_damage t = some ((st.suffer_damage t).getD [] ++ [dmg]) := by
  intro ts
  induction ts with
  | nil => intro _ _ _ _ _ hmem; exact absurd hmem (List.not_mem_nil _)
  | cons mob ts ih =>
    intro st used r t hnd hmem h
    simp only [damageLoop] at h
    rcases List.mem_cons.mp hmem with rfl | hts
    · have hnotin : t ∉ ts := (List.nodup_cons.mp hnd).1
      by_cases he : e = player
      · rw [if_pos he] at h
        cases hmn : st.names t with
        | none => simp [hmn] at h
        | some mob_name =>
          cases hin : st.names item with
          | none => simp [hmn, hin] at h
          | some item_name =>
            simp only [hmn, hin] at h
            rw [damageLoop_suffer_notmem ts _ true r t hnotin h]
            exact newDamage_self _ _ _
      · rw [if_neg he] at h
        rw [damageLoop_suffer_notmem ts _ true r t hnotin h]
        exact newDamage_self _ _ _
    · have hta : t ≠ mob := fun hc => (List.nodup_cons.mp hnd).1 (hc ▸ hts)
      have hnd' : ts.Nodup := (List.nodup_cons.mp hnd).2
      by_cases he : e = player
      · rw [if_pos he] at h
        cases hmn : st.names mob with
        | none => simp [hmn] at h
        | some mob_name =>
          cases hin : st.names item with
          | none => simp [hmn, hin] at h
          | some item_name =>
            simp only [hmn, hin] at h
            rw [ih _ true r t hnd' hts h]
            simp [newDamage_other hta]
      · rw [if_neg he] at h
        rw [ih _ true r t hnd' hts h]
        simp [newDamage_other hta]

/-! Section: Helper lemmas about the confusion branch -/

theorem confusionLogLoop_frame {player e item : Nat} :
    ∀ (ts : List Nat) (st : UseState) (used : Bool) (r : UseState × Bool),
      confusionLogLoop player e item ts st used = some r →
      r.1.equipped = st.equipped ∧ r.1.backpack = st.backpack ∧
      r.1.combat_stats = st.combat_stats ∧ r.1.confused = st.confused ∧
      r.1.suffer_damage = st.suffer_damage ∧
      r.1.names = st.names ∧ r.1.entities = st.entities ∧
      r.1.healing = st.healing ∧ r.1.inflict_damage = st.inflict_damage ∧
      r.1.consumables = st.consumables ∧ r.1.aoe = st.aoe ∧
      r.1.equippable = st.equippable ∧ r.1.deleted = st.deleted ∧
      r.1.wants_use = st.wants_use := by
  intro ts
  induction ts with
  | nil =>
    intro st used r h
    simp only [confusionLogLoop, Option.some.injEq] at h
    subst h
    exact ⟨rfl, rfl, rfl, rfl, rfl, rfl, rfl, rfl, rfl, rfl, rfl, rfl, rfl, rfl⟩
  | cons mob ts ih =>
    intro st used r h
    simp only [confusionLogLoop] at h
    by_cases he : e = player
    · rw [if_pos he] at h
      cases hmn : st.names mob with
      | none => simp [hmn] at h
      | some mob_name =>
        cases hin : st.names item with
        | none => simp [hmn, hin] at h
        | some item_name =>
          simp only [hmn, hin] at h
          have hh := ih _ true r h
          exact hh
    · rw [if_neg he] at h
      exact ih _ true r h

theorem confusionLogLoop_used_true {player e item : Nat} :
    ∀ (ts : List Nat) (st : UseState) (r : UseState × Bool),
      confusionLogLoop player e item ts st true = some r → r.2 = true := by
  intro ts
  induction ts with
  | nil =>
    intro st r h
    simp only [confusionLogLoop, Option.some.injEq] at h
    subst h
    rfl
  | cons mob ts ih =>
    intro st r h
    simp only [confusionLogLoop] at h
    by_cases he : e = player
    · rw [if_pos he] at h
      cases hmn : st.names mob with
      | none => simp [hmn] at h
      | some mob_name =>
        cases hin : st.names item with
        | none => simp [hmn, hin] at h
        | some item_name =>
          simp only [hmn, hin] at h
          exact ih _ r h
    · rw [if_neg he] at h
      exact ih _ r h

theorem confusionLogLoop_used {player e item : Nat} :
    ∀ (ts : List Nat) (st : UseState) (used : Bool) (r : UseState × Bool),
      confusionLogLoop player e item ts st used = some r →
      r.2 = (used || !ts.isEmpty) := by
  intro ts
  cases ts with
  | nil =>
    intro st used r h
    simp only [confusionLogLoop, Option.some.injEq] at h
    subst h
    simp
  | cons mob ts =>
    intro st used r h
    simp only [confusionLogLoop] at h
    by_cases he : e = player
    · rw [if_pos he] at h
      cases hmn : st.names mob with
      | none => simp [hmn] at h
      | some mob_name =>
        cases hin : st.names item with
        | none => simp [hmn, hin] at h
        | some item_name =>
          simp only [hmn, hin] at h
          rw [confusionLogLoop_used_true ts _ r h]
          simp
    · rw [if_neg he] at h
      rw [confusionLogLoop_used_true ts _ r h]
      simp

theorem applyConfusion_eq (turns : Int) (L : List Nat) (cf : Nat → Option Int) :
    applyConfusion turns L cf = fun x => if x ∈ L then some turns else cf x := by
  induction L generalizing cf with
  | nil => funext x; simp [applyConfusion]
  | cons a L ih =>
    show applyConfusion turns L _ = _
    rw [ih]
    funext x
    by_cases h1 : x ∈ L <;> by_cases h2 : x = a <;> simp [h1, h2]

theorem confusionStep_frame {player e item : Nat} {tg : List Nat} {st : UseState}
    {used : Bool} {r : UseState × Bool}
    (h : confusionStep player e item tg st used = some r) :
    r.1.equipped = st.equipped ∧ r.1.backpack = st.backpack ∧
    r.1.combat_stats = st.combat_stats ∧ r.1.suffer_damage = st.suffer_damage ∧
    r.1.names = st.names ∧ r.1.entities = st.entities ∧
    r.1.healing = st.healing ∧ r.1.inflict_damage = st.inflict_damage ∧
    r.1.consumables = st.consumables ∧ r.1.aoe = st.aoe ∧
    r.1.equippable = st.equippable ∧ r.1.deleted = st.deleted ∧
    r.1.wants_use = st.wants_use := by
  unfold confusionStep at h
  cases hc : st.confused item with
  | none =>
    rw [hc] at h
    simp only [Option.some.injEq] at h
    subst h
    exact ⟨rfl, rfl, rfl, rfl, rfl, rfl, rfl, rfl, rfl, rfl, rfl, rfl, rfl⟩
  | some turns =>
    rw [hc] at h
    cases hl : confusionLogLoop player e item tg st used with
    | none => rw [hl] at h; simp at h
    | some r0 =>
      rw [hl] at h
      simp only [Option.map_some', Option.some.injEq] at h
      subst h
      obtain ⟨h1, h2, h3, _, h4, h5, h6, h7, h8, h9, h10, h11, h12, h13⟩ :=
        confusionLogLoop_frame tg st used r0 hl
      exact ⟨h1, h2, h3, h4, h5, h6, h7, h8, h9, h10, h11, h12, h13⟩

theorem confusionStep_used {player e item : Nat} {tg : List Nat} {st : UseState}
    {used : Bool} {r : UseState × Bool}
    (h : confusionStep player e item tg st used = some r) :
    r.2 = (used || ((st.confused item).isSome && !tg.isEmpty)) := by
  unfold confusionStep at h
  cases hc : st.confused item with
  | none =>
    rw [hc] at h
    simp only [Option.some.injEq] at h
    subst h
    simp
  | some turns =>
    rw [hc] at h
    cases hl : confusionLogLoop player e item tg st used with
    | none => rw [hl] at h; simp at h
    | some r0 =>
      rw [hl] at h
      simp only [Option.map_some', Option.some.injEq] at h
      subst h
      rw [confusionLogLoop_used tg st used r0 hl]
      simp

theorem healStep_frame {player e item : Nat} {tg : List Nat} {st : UseState}
    {used : Bool} {r : UseState × Bool}
    (h : healStep player e item tg st used = some r) :
    r.1.equipped = st.equipped ∧ r.1.backpack = st.backpack ∧
    r.1.suffer_damage = st.suffer_damage ∧ r.1.confused = st.confused ∧
    r.1.names = st.names ∧ r.1.entities = st.entities ∧
    r.1.healing = st.healing ∧ r.1.inflict_damage = st.inflict_damage ∧
    r.1.consumables = st.consumables ∧ r.1.aoe = st.aoe ∧
    r.1.equippable = st.equippable ∧ r.1.deleted = st.deleted ∧
    r.1.wants_use = st.wants_use := by
  unfold healStep at h
  cases hh : st.healing item with
  | none =>
    rw [hh] at h
    simp only [Option.some.injEq] at h
    subst h
    exact ⟨rfl, rfl, rfl, rfl, rfl, rfl, rfl, rfl, rfl, rfl, rfl, rfl, rfl⟩
  | some amt =>
    rw [hh] at h
    exact healLoop_frame tg st used r h

theorem healStep_used {player e item : Nat} {tg : List Nat} {st : UseState}
    {used : Bool} {r : UseState × Bool}
    (h : healStep player e item tg st used = some r) :
    r.2 = (used || ((st.healing item).isSome &&
      tg.any (fun t => (st.combat_stats t).isSome))) := by
  unfold healStep at h
  cases hh : st.healing item with
  | none =>
    rw [hh] at h
    simp only [Option.some.injEq] at h
    subst h
    simp
  | some amt =>
    rw [hh] at h
    rw [healLoop_used tg st used r h]
    simp

theorem damageStep_frame {player e item : Nat} {tg : List Nat} {st : UseState}
    {used : Bool} {r : UseState × Bool}
    (h : damageStep player e item tg st used = some r) :
    r.1.equipped = st.equipped ∧ r.1.backpack = st.backpack ∧
    r.1.combat_stats = st.combat_stats ∧ r.1.confused = st.confused ∧
    r.1.names = st.names ∧ r.1.entities = st.entities ∧
    r.1.healing = st.healing ∧ r.1.inflict_damage = st.inflict_damage ∧
    r.1.consumables = st.consumables ∧ r.1.aoe = st.aoe ∧
    r.1.equippable = st.equippable ∧ r.1.deleted = st.deleted ∧
    r.1.wants_use = st.wants_use := by
  unfold damageStep at h
  cases hd : st.inflict_damage item with
  | none =>
    rw [hd] at h
    simp only [Option.some.injEq] at h
    subst h
    exact ⟨rfl, rfl, rfl, rfl, rfl, rfl, rfl, rfl, rfl, rfl, rfl, rfl, rfl⟩
  | some dmg =>
    rw [hd] at h
    exact damageLoop_frame tg st used r h

theorem damageStep_used {player e item : Nat} {tg : List Nat} {st : UseState}
    {used : Bool} {r : UseState × Bool}
    (h : damageStep player e item tg st used = some r) :
    r.2 = (used || ((st.inflict_damage item).isSome && !tg.isEmpty)) := by
  unfold damageStep at h
  cases hd : st.inflict_damage item with
  | none =>
    rw [hd] at h
    simp only [Option.some.injEq] at h
    subst h
    simp
  | some dmg =>
    rw [hd] at h
    rw [damageLoop_used tg st used r h]
    simp

/-! Section: decomposition of a single use-intent -/

theorem processUseItem_some {player : Nat} {m : MapM} {fov : Pt → Int → MapM → List Pt}
    {st : UseState} {e : Nat} {u : WantsToUseItem} {stF : UseState}
    (h : processUseItem player m fov st e u = some stF) :
    ∃ stA r2 r3 r4,
      equipBranch player st u (resolveTargets player m fov st.aoe u) = some stA ∧
      healStep player e u.item (resolveTargets player m fov st.aoe u) stA false = some r2 ∧
      damageStep player e u.item (resolveTargets player m fov st.aoe u) r2.1 r2.2 = some r3 ∧
      confusionStep player e u.item (resolveTargets player m fov st.aoe u) r3.1 r3.2 = some r4 ∧
      stF = consumeStep u.item r4.1 r4.2 := by
  unfold processUseItem at h
  rcases Option.bind_eq_some.mp h with ⟨stA, hA, h⟩
  rcases Option.bind_eq_some.mp h with ⟨r2, h2, h⟩
  rcases Option.bind_eq_some.mp h with ⟨r3, h3, h⟩
  rcases Option.map_eq_some'.mp h with ⟨r4, h4, h⟩
  exact ⟨stA, r2, r3, r4, hA, h2, h3, h4, h.symm⟩

theorem itemUseRun_single {player : Nat} {m : MapM} {fov : Pt → Int → MapM → List Pt}
    {st : UseState} {e : Nat} {u : WantsToUseItem}
    (hw : st.wants_use = [(e, u)]) :
    itemUseRun player m fov st =
      (processUseItem player m fov st e u).map (fun s => { s with wants_use := [] }) := by
  unfold itemUseRun
  rw [hw]
  cases hp : processUseItem player m fov st e u <;>
    simp [useLoop, hp]

theorem itemUseRun_single_some {player : Nat} {m : MapM}
    {fov : Pt → Int → MapM → List Pt} {st : UseState} {e : Nat} {u : WantsToUseItem}
    {stR : UseState} (hw : st.wants_use = [(e, u)])
    (h : itemUseRun player m fov st = some stR) :
    ∃ stM, processUseItem player m fov st e u = some stM ∧
      stR = { stM with wants_use := [] } := by
  rw [itemUseRun_single hw] at h
  rcases Option.map_eq_some'.mp h with ⟨stM, hM, hR⟩
  exact ⟨stM, hM, hR.symm⟩

theorem consumeStep_frame (item : Nat) (st : UseState) (used : Bool) :
    (consumeStep item st used).gamelog = st.gamelog ∧
    (consumeStep item st used).wants_use = st.wants_use ∧
    (consumeStep item st used).entities = st.entities ∧
    (consumeStep item st used).names = st.names ∧
    (consumeStep item st used).consumables = st.consumables ∧
    (consumeStep item st used).healing = st.healing ∧
    (consumeStep item st used).inflict_damage = st.inflict_damage ∧
    (consumeStep item st used).suffer_damage = st.suffer_damage ∧
    (consumeStep item st used).confused = st.confused ∧
    (consumeStep item st used).aoe = st.aoe ∧
    (consumeStep item st used).combat_stats = st.combat_stats ∧
    (consumeStep item st used).equippable = st.equippable ∧
    (consumeStep item st used).equipped = st.equipped ∧
    (consumeStep item st used).backpack = st.backpack := by
  unfold consumeStep
  cases used <;> simp <;> split <;> simp

theorem consumeStep_deleted (item : Nat) (st : UseState) (used : Bool) :
    (consumeStep item st used).deleted =
      if used && st.consumables item then st.deleted ++ [item] else st.deleted := by
  unfold consumeStep
  cases used <;> simp <;> split <;> simp_all

/-! Section: Claim C1 -/

/-- Claim C1 (amended): for every pending use-intent whose target point is
absent, the targeting step resolves the target set to exactly one entity:
the player entity — not necessarily the entity that issued the intent
(`src/inventory_system.rs`, line 77 pushes `*player_entity`). -/
theorem useIntent_no_target_targets_player (player : Nat) (m : MapM)
    (fov : Pt → Int → MapM → List Pt) (aoe : Nat → Option Int) (item : Nat) :
    resolveTargets player m fov aoe ⟨item, none⟩ = [player] := rfl

def mapC1 : MapM :=
  { width := 10, height := 10, xy_idx := fun x y => (y * 10 + x).toNat
    tile_content := fun _ => [] }

def fovC1 : Pt → Int → MapM → List Pt := fun p _ _ => [p]

/-- A state in which entity 5 (not the player, who is entity 1) has a pending
use-intent with no target point for healing item 7; both 1 and 5 have
5/20 hp. -/
def stC1 : UseState :=
  { gamelog := []
    wants_use := [(5, ⟨7, none⟩)]
    entities := [1, 5, 7]
    names := fun e => if e = 7 then some "Potion" else none
    consumables := fun _ => false
    healing := fun e => if e = 7 then some 10 else none
    inflict_damage := fun _ => none
    suffer_damage := fun _ => none
    confused := fun _ => none
    aoe := fun _ => none
    combat_stats := fun e => if e = 1 then some ⟨20, 5⟩ else if e = 5 then some ⟨20, 5⟩ else none
    equippable := fun _ => none
    equipped := fun _ => none
    backpack := fun _ => none
    deleted := [] }

/-- Claim C1 counterexample: for a no-target use-intent issued by entity 5
(with player entity 1), the resolved target set is `[1]`, not `[5]`, and
running the system heals the player (hp 5 to 15) while leaving the issuing
entity's hp unchanged — the claim's "the entity that issued the use-intent"
is wrong on the code. -/
theorem useIntent_no_target_targets_player_cx :
    resolveTargets 1 mapC1 fovC1 stC1.aoe ⟨7, none⟩ ≠ [5] ∧
    (itemUseRun 1 mapC1 fovC1 stC1).map (fun s => s.combat_stats 5) =
      some (some ⟨20, 5⟩) ∧
    (itemUseRun 1 mapC1 fovC1 stC1).map (fun s => s.combat_stats 1) =
      some (some ⟨20, 15⟩) :=
  ⟨by decide, by decide, by decide⟩

/-! Section: Claim C4 -/

theorem mem_foldl_append {α β : Type} (f : β → List α) :
    ∀ (L : List β) (acc : List α) (x : α),
      x ∈ L.foldl (fun a p => a ++ f p) acc ↔ x ∈ acc ∨ ∃ p ∈ L, x ∈ f p := by
  intro L
  induction L with
  | nil => intro acc x; simp
  | cons b L ih =>
    intro acc x
    rw [List.foldl_cons, ih]
    simp [List.mem_append, or_assoc]

/-- Claim C4: for a use-intent with a target point on an item with
`AreaOfEffect` radius `R`, the target set consists exactly of the occupants
of the tiles of the field-of-view blast from the target point that lie
strictly inside the map border (`0 < x < width - 1` and `0 < y < height - 1`);
occupants of outermost-border tiles are excluded. -/
theorem aoe_targets_spec (player : Nat) (m : MapM)
    (fov : Pt → Int → MapM → List Pt) (aoe : Nat → Option Int)
    (item : Nat) (pt : Pt) (radius : Int) (x : Nat)
    (hr : aoe item = some radius) :
    x ∈ resolveTargets player m fov aoe ⟨item, some pt⟩ ↔
      ∃ p, p ∈ fov pt radius m ∧
        (0 < p.x ∧ p.x < m.width - 1 ∧ 0 < p.y ∧ p.y < m.height - 1) ∧
        x ∈ m.tile_content (m.xy_idx p.x p.y) := by
  unfold resolveTargets
  simp only [hr]
  rw [mem_foldl_append]
  simp only [List.not_mem_nil, false_or, List.mem_filter]
  constructor
  · rintro ⟨p, ⟨hmem, hcond⟩, hocc⟩
    simp only [Bool.and_eq_true, decide_eq_true_eq] at hcond
    exact ⟨p, hmem, ⟨hcond.1.1.1, hcond.1.1.2, hcond.1.2, hcond.2⟩, hocc⟩
  · rintro ⟨p, hmem, ⟨h1, h2, h3, h4⟩, hocc⟩
    refine ⟨p, ⟨hmem, ?_⟩, hocc⟩
    simp only [Bool.and_eq_true, decide_eq_true_eq]
    exact ⟨⟨⟨h1, h2⟩, h3⟩, h4⟩

def mapC4 : MapM :=
  { width := 10, height := 10, xy_idx := fun x y => (y * 10 + x).toNat
    tile_content := fun i => if i = 33 then [10, 11] else if i = 50 then [99] else [] }

/-- A blast function returning one interior tile (3,3) and one border tile
(0,5); tile (3,3) holds entities 10 and 11, tile (0,5) holds entity 99. -/
def fovC4 : Pt → Int → MapM → List Pt := fun _ _ _ => [⟨3, 3⟩, ⟨0, 5⟩]

def aoeC4 : Nat → Option Int := fun e => if e = 7 then some 2 else none

theorem aoe_targets_spec_witness :
    (10 ∈ resolveTargets 1 mapC4 fovC4 aoeC4 ⟨7, some ⟨3, 3⟩⟩) ∧
    ¬(99 ∈ resolveTargets 1 mapC4 fovC4 aoeC4 ⟨7, some ⟨3, 3⟩⟩) := by
  constructor
  · exact (aoe_targets_spec 1 mapC4 fovC4 aoeC4 7 ⟨3, 3⟩ 2 10 rfl).mpr
      ⟨⟨3, 3⟩, by decide, by decide, by decide⟩
  · intro h
    rcases (aoe_targets_spec 1 mapC4 fovC4 aoeC4 7 ⟨3, 3⟩ 2 99 rfl).mp h with ⟨p, hp, hb, ho⟩
    have hp2 : p ∈ [(⟨3, 3⟩ : Pt), ⟨0, 5⟩] := hp
    rcases List.mem_cons.mp hp2 with rfl | hp3
    · exact absurd ho (by decide)
    · rcases List.mem_cons.mp hp3 with rfl | hp4
      · exact absurd hb (by decide)
      · exact absurd hp4 (List.not_mem_nil p)

/-! Section: Claim C9 -/

/-- Claim C9: a tick beginning in `PreRun` ends in `AwaitingInput`, a tick
beginning in `PlayerTurn` ends in `MonsterTurn`, and a tick beginning in
`MonsterTurn` ends in `AwaitingInput`; each of these runs the full system
pipeline (`runSystems`, which ends with the `maintain` flush) followed by the
tick's own `maintain` flush before transitioning, and the delete-the-dead
pass runs at the end of the tick. -/
theorem gameplay_tick_transitions {W : Type} (E : Engine W) (w : W) :
    tick E .PreRun w =
      some (.AwaitingInput, E.delete_the_dead (E.maintain (runSystems E w))) ∧
    tick E .PlayerTurn w =
      some (.MonsterTurn, E.delete_the_dead (E.maintain (runSystems E w))) ∧
    tick E .MonsterTurn w =
      some (.AwaitingInput, E.delete_the_dead (E.maintain (runSystems E w))) :=
  ⟨rfl, rfl, rfl⟩

/-! Section: Claim C10 -/

/-- Claim C10: for a use-intent on an `Equippable` item whose resolved target
set is empty, the equip branch indexes `targets[0]` without a guard, so the
Item Use System panics (modelled as `none`) instead of skipping the intent. -/
theorem equip_empty_targets_panics {player : Nat} {m : MapM}
    {fov : Pt → Int → MapM → List Pt} {st : UseState} {e : Nat}
    {u : WantsToUseItem} {slot : Nat}
    (hw : st.wants_use = [(e, u)])
    (hslot : st.equippable u.item = some slot)
    (htg : resolveTargets player m fov st.aoe u = []) :
    itemUseRun player m fov st = none := by
  rw [itemUseRun_single hw]
  unfold processUseItem
  simp [htg, equipBranch_empty_targets hslot]

def mapC10 : MapM :=
  { width := 10, height := 10, xy_idx := fun x y => (y * 10 + x).toNat
    tile_content := fun _ => [] }

def fovC10 : Pt → Int → MapM → List Pt := fun p _ _ => [p]

/-- Entity 5 uses equippable item 7 with a target point on an unoccupied
tile: the resolved target set is empty. -/
def stC10 : UseState :=
  { gamelog := []
    wants_use := [(5, ⟨7, some ⟨3, 3⟩⟩)]
    entities := [1, 5, 7]
    names := fun e => if e = 7 then some "Sword" else none
    consumables := fun _ => false
    healing := fun _ => none
    inflict_damage := fun _ => none
    suffer_damage := fun _ => none
    confused := fun _ => none
    aoe := fun _ => none
    combat_stats := fun _ => none
    equippable := fun e => if e = 7 then some 0 else none
    equipped := fun _ => none
    backpack := fun _ => none
    deleted := [] }

theorem equip_empty_targets_panics_witness :
    itemUseRun 1 mapC10 fovC10 stC10 = none :=
  @equip_empty_targets_panics 1 mapC10 fovC10 stC10 5 ⟨7, some ⟨3, 3⟩⟩ 0 rfl rfl rfl

/-! Section: Claim C5 -/

/-- Claim C5: for a use-intent on an item with `ProvidesHealing{heal_amount}`,
every target of the intent that has `CombatStats` ends with
`hp = min(max_hp, hp + heal_amount)`, which never exceeds `max_hp`. -/
theorem healing_clamped_spec {player : Nat} {m : MapM}
    {fov : Pt → Int → MapM → List Pt} {st : UseState} {e : Nat} {u : WantsToUseItem}
    {stR : UseState} {amt : Int} {t : Nat} {s : CombatStats}
    (hw : st.wants_use = [(e, u)])
    (hheal : st.healing u.item = some amt)
    (hnd : (resolveTargets player m fov st.aoe u).Nodup)
    (ht : t ∈ resolveTargets player m fov st.aoe u)
    (hcs : st.combat_stats t = some s)
    (hrun : itemUseRun player m fov st = some stR) :
    stR.combat_stats t = some ⟨s.max_hp, min s.max_hp (s.hp + amt)⟩ ∧
    min s.max_hp (s.hp + amt) ≤ s.max_hp := by
  obtain ⟨stM, hM, hRst⟩ := itemUseRun_single_some hw hrun
  obtain ⟨stA, r2, r3, r4, hA, h2, h3, h4, hF⟩ := processUseItem_some hM
  have hAf := equipBranch_frame hA
  have hAheal : stA.healing u.item = some amt := by
    rw [hAf.2.2.2.2.2.1]; exact hheal
  have h2' : healLoop player e u.item amt (resolveTargets player m fov st.aoe u)
      stA false = some r2 := by
    unfold healStep at h2; rw [hAheal] at h2; exact h2
  have hAc : stA.combat_stats t = some s := by rw [hAf.1]; exact hcs
  have hcomb : r2.1.combat_stats t = some ⟨s.max_hp, min s.max_hp (s.hp + amt)⟩ :=
    healLoop_combat_mem _ stA false r2 t s hnd ht hAc h2'
  have h3c := (damageStep_frame h3).2.2.1
  have h4c := (confusionStep_frame h4).2.2.1
  have hMc : stM.combat_stats = r4.1.combat_stats := by
    rw [hF]; exact (consumeStep_frame u.item r4.1 r4.2).2.2.2.2.2.2.2.2.2.2.1
  have hRc : stR.combat_stats = stM.combat_stats := by rw [hRst]
  refine ⟨?_, min_le_left _ _⟩
  rw [hRc, hMc, h4c, h3c]
  exact hcomb

def mapC5 : MapM :=
  { width := 10, height := 10, xy_idx := fun x y => (y * 10 + x).toNat
    tile_content := fun _ => [] }

def fovC5 : Pt → Int → MapM → List Pt := fun p _ _ => [p]

/-- Entity 5 (not the player) drinks healing item 7 (heal 10) with no target;
the sole target is the player, entity 1, who has 5/20 hp. -/
def stC5 : UseState :=
  { gamelog := []
    wants_use := [(5, ⟨7, none⟩)]
    entities := [1, 5, 7]
    names := fun e => if e = 7 then some "Potion" else none
    consumables := fun _ => false
    healing := fun e => if e = 7 then some 10 else none
    inflict_damage := fun _ => none
    suffer_damage := fun _ => none
    confused := fun _ => none
    aoe := fun _ => none
    combat_stats := fun e => if e = 1 then some ⟨20, 5⟩ else none
    equippable := fun _ => none
    equipped := fun _ => none
    backpack := fun _ => none
    deleted := [] }

theorem healing_clamped_spec_witness :
    (itemUseRun 1 mapC5 fovC5 stC5).map (fun s => s.combat_stats 1) =
      some (some ⟨20, 15⟩) := by
  cases hrun : itemUseRun 1 mapC5 fovC5 stC5 with
  | none =>
    have hs : (itemUseRun 1 mapC5 fovC5 stC5).isSome = true := by rfl
    rw [hrun] at hs
    simp at hs
  | some stR =>
    have h := @healing_clamped_spec 1 mapC5 fovC5 stC5 5 ⟨7, none⟩ stR 10 1 ⟨20, 5⟩
      rfl rfl (by decide) (by decide) rfl hrun
    simp only [Option.map_some']
    rw [h.1]
    decide

/-! Section: Claim C8 -/

/-- Claim C8: for a use-intent on an item with `InflictsDamage{damage}` (and
no healing component, the only other branch that writes `CombatStats`), the
damage branch appends one pending damage event of that magnitude to each
target's `SufferDamage` accumulation, and the Item Use System leaves every
entity's `CombatStats` unchanged: hp reduction happens only in the separate
damage-resolution phase. -/
theorem damage_branch_spec {player : Nat} {m : MapM}
    {fov : Pt → Int → MapM → List Pt} {st : UseState} {e : Nat} {u : WantsToUseItem}
    {stR : UseState} {dmg : Int} {t : Nat}
    (hw : st.wants_use = [(e, u)])
    (hdmg : st.inflict_damage u.item = some dmg)
    (hheal : st.healing u.item = none)
    (hnd : (resolveTargets player m fov st.aoe u).Nodup)
    (ht : t ∈ resolveTargets player m fov st.aoe u)
    (hrun : itemUseRun player m fov st = some stR) :
    stR.suffer_damage t = some ((st.suffer_damage t).getD [] ++ [dmg]) ∧
    (∀ x, stR.combat_stats x = st.combat_stats x) := by
  obtain ⟨stM, hM, hRst⟩ := itemUseRun_single_some hw hrun
  obtain ⟨stA, r2, r3, r4, hA, h2, h3, h4, hF⟩ := processUseItem_some hM
  have hAf := equipBranch_frame hA
  have hAheal : stA.healing u.item = none := by
    rw [hAf.2.2.2.2.2.1]; exact hheal
  have h2eq : r2 = (stA, false) := by
    unfold healStep at h2
    rw [hAheal] at h2
    simp only [Option.some.injEq] at h2
    exact h2.symm
  subst h2eq
  have hAdmg : stA.inflict_damage u.item = some dmg := by
    rw [hAf.2.2.2.2.2.2.1]; exact hdmg
  have h3' : damageLoop player e u.item dmg (resolveTargets player m fov st.aoe u)
      stA false = some r3 := by
    unfold damageStep at h3
    rw [hAdmg] at h3
    exact h3
  have hsuf : r3.1.suffer_damage t = some ((stA.suffer_damage t).getD [] ++ [dmg]) :=
    damageLoop_suffer_mem _ stA false r3 t hnd ht h3'
  have hAs : stA.suffer_damage = st.suffer_damage := hAf.2.1
  have h3c := (damageLoop_frame _ stA false r3 h3').2.2.1
  have h4c := (confusionStep_frame h4).2.2.1
  have h4s := (confusionStep_frame h4).2.2.2.1
  have hMc : stM.combat_stats = r4.1.combat_stats := by
    rw [hF]; exact (consumeStep_frame u.item r4.1 r4.2).2.2.2.2.2.2.2.2.2.2.1
  have hMs : stM.suffer_damage = r4.1.suffer_damage := by
    rw [hF]; exact (consumeStep_frame u.item r4.1 r4.2).2.2.2.2.2.2.2.1
  have hRc : stR.combat_stats = stM.combat_stats := by rw [hRst]
  have hRs : stR.suffer_damage = stM.suffer_damage := by rw [hRst]
  constructor
  · rw [hRs, hMs, h4s, hsuf, hAs]
  · intro x
    rw [hRc, hMc, h4c, h3c, hAf.1]

def mapC8 : MapM :=
  { width := 10, height := 10, xy_idx := fun x y => (y * 10 + x).toNat
    tile_content := fun i => if i = 33 then [2] else [] }

def fovC8 : Pt → Int → MapM → List Pt := fun p _ _ => [p]

/-- Entity 5 (not the player) uses damage item 7 (8 damage, no AoE) on the
tile (3,3), occupied by monster 2 with 9/15 hp. -/
def stC8 : UseState :=
  { gamelog := []
    wants_use := [(5, ⟨7, some ⟨3, 3⟩⟩)]
    entities := [1, 2, 5, 7]
    names := fun e => if e = 7 then some "Scroll" else none
    consumables := fun _ => false
    healing := fun _ => none
    inflict_damage := fun e => if e = 7 then some 8 else none
    suffer_damage := fun _ => none
    confused := fun _ => none
    aoe := fun _ => none
    combat_stats := fun e => if e = 2 then some ⟨15, 9⟩ else none
    equippable := fun _ => none
    equipped := fun _ => none
    backpack := fun _ => none
    deleted := [] }

theorem damage_branch_spec_witness :
    (itemUseRun 1 mapC8 fovC8 stC8).map
      (fun s => (s.suffer_damage 2, s.combat_stats 2)) =
      some (some [8], some ⟨15, 9⟩) := by
  cases hrun : itemUseRun 1 mapC8 fovC8 stC8 with
  | none =>
    have hs : (itemUseRun 1 mapC8 fovC8 stC8).isSome = true := by rfl
    rw [hrun] at hs
    simp at hs
  | some stR =>
    have h := @damage_branch_spec 1 mapC8 fovC8 stC8 5 ⟨7, some ⟨3, 3⟩⟩ stR 8 2
      rfl rfl rfl (by decide) (by decide) hrun
    simp only [Option.map_some']
    rw [h.1, h.2 2]
    decide

/-! Section: Claim C2 -/

/-- Claim C2: for a processed use-intent, the item entity is deleted if and
only if it carries a `Consumable` tag and at least one of the healing,
damage, or confusion branches applied to some target (healing applies to
targets with combat stats; damage and confusion apply to any target); an
equip-only outcome never deletes the item. -/
theorem consumable_deleted_iff_effect {player : Nat} {m : MapM}
    {fov : Pt → Int → MapM → List Pt} {st : UseState} {e : Nat} {u : WantsToUseItem}
    {stR : UseState}
    (hw : st.wants_use = [(e, u)])
    (hdel : st.deleted = [])
    (hrun : itemUseRun player m fov st = some stR) :
    u.item ∈ stR.deleted ↔
      st.consumables u.item = true ∧
        (((st.healing u.item).isSome = true ∧
            ∃ t ∈ resolveTargets player m fov st.aoe u,
              (st.combat_stats t).isSome = true) ∨
         ((st.inflict_damage u.item).isSome = true ∧
            resolveTargets player m fov st.aoe u ≠ []) ∨
         ((st.confused u.item).isSome = true ∧
            resolveTargets player m fov st.aoe u ≠ [])) := by
  obtain ⟨stM, hM, hRst⟩ := itemUseRun_single_some hw hrun
  obtain ⟨stA, r2, r3, r4, hA, h2, h3, h4, hF⟩ := processUseItem_some hM
  have hAf := equipBranch_frame hA
  have h2f := healStep_frame h2
  have h3f := damageStep_frame h3
  have h4f := confusionStep_frame h4
  -- the used flag after each branch
  have hu2 := healStep_used h2
  rw [hAf.2.2.2.2.2.1, hAf.1] at hu2
  have hu3 := damageStep_used h3
  rw [h2f.2.2.2.2.2.2.2.1, hAf.2.2.2.2.2.2.1] at hu3
  have hu4 := confusionStep_used h4
  rw [h3f.2.2.2.1, h2f.2.2.2.1, hAf.2.2.1] at hu4
  -- the deleted list before consumption is still empty
  have hd4 : r4.1.deleted = [] := by
    rw [h4f.2.2.2.2.2.2.2.2.2.2.2.1, h3f.2.2.2.2.2.2.2.2.2.2.2.1,
      h2f.2.2.2.2.2.2.2.2.2.2.2.1, hAf.2.2.2.2.2.2.2.2.2.2.1, hdel]
  have hc4 : r4.1.consumables = st.consumables := by
    rw [h4f.2.2.2.2.2.2.2.2.1, h3f.2.2.2.2.2.2.2.2.1, h2f.2.2.2.2.2.2.2.2.1,
      hAf.2.2.2.2.2.2.2.1]
  have hRd : stR.deleted = stM.deleted := by rw [hRst]
  have hMd : stM.deleted =
      if r4.2 && st.consumables u.item then [u.item] else [] := by
    rw [hF, consumeStep_deleted, hc4, hd4]
    simp
  rw [hRd, hMd, hu4, hu3, hu2]
  by_cases hcons : st.consumables u.item = true
  · simp only [hcons, Bool.and_true, true_and]
    cases hh1 : (st.healing u.item).isSome <;>
      cases hh2 : (st.inflict_damage u.item).isSome <;>
        cases hh3 : (st.confused u.item).isSome <;>
          simp [List.any_eq_true, List.isEmpty_iff, List.mem_singleton]
  · simp only [Bool.not_eq_true] at hcons
    simp [hcons]

def mapC2 : MapM :=
  { width := 10, height := 10, xy_idx := fun x y => (y * 10 + x).toNat
    tile_content := fun _ => [] }

def fovC2 : Pt → Int → MapM → List Pt := fun p _ _ => [p]

/-- Entity 5 (not the player) uses consumable healing item 7 with no target;
the sole target, the player entity 1, has combat stats, so the healing branch
applies and the item must be deleted. -/
def stC2 : UseState :=
  { gamelog := []
    wants_use := [(5, ⟨7, none⟩)]
    entities := [1, 5, 7]
    names := fun e => if e = 7 then some "Potion" else none
    consumables := fun e => e = 7
    healing := fun e => if e = 7 then some 10 else none
    inflict_damage := fun _ => none
    suffer_damage := fun _ => none
    confused := fun _ => none
    aoe := fun _ => none
    combat_stats := fun e => if e = 1 then some ⟨20, 5⟩ else none
    equippable := fun _ => none
    equipped := fun _ => none
    backpack := fun _ => none
    deleted := [] }

theorem consumable_deleted_iff_effect_witness :
    (itemUseRun 1 mapC2 fovC2 stC2).map (fun s => decide (7 ∈ s.deleted)) =
      some true := by
  cases hrun : itemUseRun 1 mapC2 fovC2 stC2 with
  | none =>
    have hs : (itemUseRun 1 mapC2 fovC2 stC2).isSome = true := by rfl
    rw [hrun] at hs
    simp at hs
  | some stR =>
    have h := @consumable_deleted_iff_effect 1 mapC2 fovC2 stC2 5 ⟨7, none⟩ stR
      rfl rfl hrun
    simp only [Option.map_some', Option.some.injEq]
    rw [decide_eq_true_eq]
    exact h.mpr ⟨by decide, Or.inl ⟨by decide, ⟨1, by decide, by decide⟩⟩⟩

/-! Section: Claim C3 -/

def mapC3 : MapM :=
  { width := 10, height := 10, xy_idx := fun x y => (y * 10 + x).toNat
    tile_content := fun _ => [] }

def fovC3 : Pt → Int → MapM → List Pt := fun p _ _ => [p]

/-- The player (entity 0) equips item 1 ("Sword"), which is itself already
`Equipped{owner: 0, slot: 0}`; entity 2 is also `Equipped{owner: 0, slot: 0}`
but has no `Name` component. -/
def stC3 : UseState :=
  { gamelog := []
    wants_use := [(0, ⟨1, none⟩)]
    entities := [0, 1, 2]
    names := fun e => if e = 1 then some "Sword" else none
    consumables := fun _ => false
    healing := fun _ => none
    inflict_damage := fun _ => none
    suffer_damage := fun _ => none
    confused := fun _ => none
    aoe := fun _ => none
    combat_stats := fun _ => none
    equippable := fun e => if e = 1 then some 0 else none
    equipped := fun e => if e = 1 then some ⟨0, 0⟩ else if e = 2 then some ⟨0, 0⟩ else none
    backpack := fun _ => none
    deleted := [] }

/-- Claim C3 counterexample: the eviction scan joins on the `Name` storage
(`src/inventory_system.rs`, line 122), so the nameless item 2, previously
`Equipped{owner: 0, slot: 0}`, is not evicted: after the equip branch it
still has an `Equipped` edge and no `InBackpack` edge, and two items (1 and
2) are `Equipped` in the same (owner, slot) pair — the claim's eviction and
at-most-one conclusions are false as stated. -/
theorem equip_branch_spec_cx :
    (itemUseRun 0 mapC3 fovC3 stC3).map
      (fun s => (s.equipped 1, s.equipped 2, s.backpack 2)) =
      some (some ⟨0, 0⟩, some ⟨0, 0⟩, none) ∧ (2 : Nat) ≠ 1 :=
  ⟨by decide, by decide⟩

/-- Claim C3 (amended): after the equip branch of a use-intent on an
`Equippable{slot}` item with first target `t`: every item other than the used
item that was previously `Equipped{owner: t, slot}` and has a `Name`
component ends with an `InBackpack{owner: t}` edge and no `Equipped` edge;
the used item is `Equipped{owner: t, slot}` with no `InBackpack` edge; and
provided every item equipped in that (owner, slot) pair is a live entity
with a `Name`, the used item is the only item `Equipped` in that pair
afterwards. -/
theorem equip_branch_spec {player : Nat} {m : MapM}
    {fov : Pt → Int → MapM → List Pt} {st : UseState} {e : Nat} {u : WantsToUseItem}
    {stR : UseState} {slot t : Nat} {rest : List Nat}
    (hw : st.wants_use = [(e, u)])
    (hslot : st.equippable u.item = some slot)
    (htg : resolveTargets player m fov st.aoe u = t :: rest)
    (hrun : itemUseRun player m fov st = some stR) :
    (∀ x, x ∈ st.entities → x ≠ u.item → (st.names x).isSome = true →
        st.equipped x = some ⟨t, slot⟩ →
        stR.equipped x = none ∧ stR.backpack x = some ⟨t⟩) ∧
    stR.equipped u.item = some ⟨t, slot⟩ ∧
    stR.backpack u.item = none ∧
    ((∀ x, st.equipped x = some ⟨t, slot⟩ →
        x ∈ st.entities ∧ (st.names x).isSome = true) →
      ∀ x, stR.equipped x = some ⟨t, slot⟩ → x = u.item) := by
  obtain ⟨stM, hM, hRst⟩ := itemUseRun_single_some hw hrun
  obtain ⟨stA, r2, r3, r4, hA, h2, h3, h4, hF⟩ := processUseItem_some hM
  rw [htg] at hA
  obtain ⟨hEq, hBp⟩ := equipBranch_some_edges hslot hA
  have h2f := healStep_frame h2
  have h3f := damageStep_frame h3
  have h4f := confusionStep_frame h4
  have hMeq : stM.equipped = stA.equipped := by
    rw [hF, (consumeStep_frame u.item r4.1 r4.2).2.2.2.2.2.2.2.2.2.2.2.2.1,
      h4f.1, h3f.1, h2f.1]
  have hMbp : stM.backpack = stA.backpack := by
    rw [hF, (consumeStep_frame u.item r4.1 r4.2).2.2.2.2.2.2.2.2.2.2.2.2.2,
      h4f.2.1, h3f.2.1, h2f.2.1]
  have hReq : stR.equipped = stA.equipped := by rw [hRst]; exact hMeq
  have hRbp : stR.backpack = stA.backpack := by rw [hRst]; exact hMbp
  refine ⟨?_, ?_, ?_, ?_⟩
  · intro x hxe hxne hxnm hxeq
    have hxu : x ∈ toUnequip st t slot :=
      mem_toUnequip.mpr ⟨hxe, ⟨⟨t, slot⟩, hxeq, rfl, rfl⟩, hxnm⟩
    constructor
    · rw [hReq, hEq x, if_neg hxne, if_pos hxu]
    · rw [hRbp, hBp x, if_neg hxne, if_pos hxu]
  · rw [hReq, hEq u.item, if_pos rfl]
  · rw [hRbp, hBp u.item, if_pos rfl]
  · intro hdom x hx
    by_cases hxu : x = u.item
    · exact hxu
    · exfalso
      rw [hReq, hEq x, if_neg hxu] at hx
      by_cases hmem : x ∈ toUnequip st t slot
      · rw [if_pos hmem] at hx
        exact Option.noConfusion hx
      · rw [if_neg hmem] at hx
        obtain ⟨hxe, hxnm⟩ := hdom x hx
        exact hmem (mem_toUnequip.mpr ⟨hxe, ⟨⟨t, slot⟩, hx, rfl, rfl⟩, hxnm⟩)

def mapW3 : MapM :=
  { width := 10, height := 10, xy_idx := fun x y => (y * 10 + x).toNat
    tile_content := fun _ => [] }

def fovW3 : Pt → Int → MapM → List Pt := fun p _ _ => [p]

/-- The player (entity 0) equips backpack item 1 ("Sword", slot 0) while
item 2 ("Old", named) is currently `Equipped{owner: 0, slot: 0}`. -/
def stW3 : UseState :=
  { gamelog := []
    wants_use := [(0, ⟨1, none⟩)]
    entities := [0, 1, 2]
    names := fun e => if e = 1 then some "Sword" else if e = 2 then some "Old" else none
    consumables := fun _ => false
    healing := fun _ => none
    inflict_damage := fun _ => none
    suffer_damage := fun _ => none
    confused := fun _ => none
    aoe := fun _ => none
    combat_stats := fun _ => none
    equippable := fun e => if e = 1 then some 0 else none
    equipped := fun e => if e = 2 then some ⟨0, 0⟩ else none
    backpack := fun e => if e = 1 then some ⟨0⟩ else none
    deleted := [] }

theorem equip_branch_spec_witness :
    (itemUseRun 0 mapW3 fovW3 stW3).map
      (fun s => (s.equipped 2, s.backpack 2, s.equipped 1, s.backpack 1)) =
      some (none, some ⟨0⟩, some ⟨0, 0⟩, none) := by
  cases hrun : itemUseRun 0 mapW3 fovW3 stW3 with
  | none =>
    have hs : (itemUseRun 0 mapW3 fovW3 stW3).isSome = true := by rfl
    rw [hrun] at hs
    simp at hs
  | some stR =>
    obtain ⟨h1, h2, h3, _⟩ := @equip_branch_spec 0 mapW3 fovW3 stW3 0 ⟨1, none⟩ stR
      0 0 [] rfl rfl rfl hrun
    obtain ⟨h2a, h2b⟩ := h1 2 (by decide) (by decide) (by decide) (by decide)
    simp only [Option.map_some', Option.some.injEq]
    rw [h2a, h2b, h2, h3]

/-! Section: Claim C7 -/

/-- Claim C7: for a pending pickup intent, after `ItemCollectionSystem::run`
the item has no `Position` and has an `InBackpack{owner: collected_by}` edge;
all pickup intents are cleared; and exactly when the collector is the player
entity, the narration line "You pick up the {item name}." is appended. -/
theorem pickup_spec {player : Nat} {st : PickupState} {p : WantsToPickupItem}
    {nm : String} {stR : PickupState}
    (hw : st.wants_pickup = [p])
    (hn : st.names p.item = some nm)
    (hrun : itemCollectionRun player st = some stR) :
    stR.positions p.item = none ∧
    stR.backpack p.item = some ⟨p.collected_by⟩ ∧
    stR.wants_pickup = [] ∧
    (p.collected_by = player →
      stR.gamelog = st.gamelog ++ ["You pick up the " ++ nm ++ "."]) ∧
    (p.collected_by ≠ player → stR.gamelog = st.gamelog) := by
  unfold itemCollectionRun at hrun
  rw [hw] at hrun
  by_cases hc : p.collected_by = player
  · simp only [pickupLoop, hn, if_pos hc, Option.map_some', Option.some.injEq] at hrun
    subst hrun
    refine ⟨by simp, by simp, rfl, fun _ => rfl, fun hnc => absurd hc hnc⟩
  · simp only [pickupLoop, if_neg hc, Option.map_some', Option.some.injEq] at hrun
    subst hrun
    refine ⟨by simp, by simp, rfl, fun hcc => absurd hcc hc, fun _ => rfl⟩

/-- The player (entity 1) picks up item 4 ("Rock") lying at (2,2). -/
def stC7 : PickupState :=
  { gamelog := ["hello"]
    wants_pickup := [⟨1, 4⟩]
    positions := fun e => if e = 4 then some ⟨2, 2⟩ else none
    names := fun e => if e = 4 then some "Rock" else none
    backpack := fun _ => none }

theorem pickup_spec_witness :
    (itemCollectionRun 1 stC7).map
      (fun s => (s.positions 4, s.backpack 4, s.wants_pickup, s.gamelog)) =
      some (none, some ⟨1⟩, [], ["hello", "You pick up the Rock."]) := by
  cases hrun : itemCollectionRun 1 stC7 with
  | none =>
    have hs : (itemCollectionRun 1 stC7).isSome = true := by rfl
    rw [hrun] at hs
    simp at hs
  | some stR =>
    obtain ⟨h1, h2, h3, h4, _⟩ := @pickup_spec 1 stC7 ⟨1, 4⟩ "Rock" stR
      rfl rfl hrun
    simp only [Option.map_some', Option.some.injEq]
    rw [h1, h2, h3, h4 rfl]
    rfl

/-! Section: Claim C6 -/

theorem goto_entities (spawned : List Nat) (s : LState) :
    (goto_next_level spawned s).entities =
      s.entities.filter
        (fun e => !((entities_to_remove_on_level_change s).contains e)) ++ spawned := by
  unfold goto_next_level
  cases h : s.combat_stats s.player_entity <;> simp [h]

theorem goto_backpack (spawned : List Nat) (s : LState) :
    (goto_next_level spawned s).backpack = s.backpack := by
  unfold goto_next_level
  cases h : s.combat_stats s.player_entity <;> simp [h]

theorem goto_equipped (spawned : List Nat) (s : LState) :
    (goto_next_level spawned s).equipped = s.equipped := by
  unfold goto_next_level
  cases h : s.combat_stats s.player_entity <;> simp [h]

theorem goto_combat_player {spawned : List Nat} {s : LState} {stats : CombatStats}
    (hcs : s.combat_stats s.player_entity = some stats) :
    (goto_next_level spawned s).combat_stats s.player_entity =
      some ⟨stats.max_hp, max stats.hp (Int.tdiv stats.max_hp 2)⟩ := by
  unfold goto_next_level
  simp [hcs]

/-- Claim C6: after the level transition, every pre-existing entity that is
neither the player nor carries an ownership edge (`InBackpack` or `Equipped`)
owned by the player has been deleted; every player-owned entity survives with
unchanged ownership edges; and the player's hp becomes
`max(hp, max_hp / 2)` (truncating division), so it is never reduced. -/
theorem level_transition_spec {s : LState} {spawned : List Nat} {stats : CombatStats}
    (hpc : ∀ x, s.playerComp x = true ↔ x = s.player_entity)
    (hfresh : ∀ x, x ∈ s.entities → x ∉ spawned)
    (hcs : s.combat_stats s.player_entity = some stats) :
    (∀ x, x ∈ s.entities → x ≠ s.player_entity →
        (∀ bp, s.backpack x = some bp → bp.owner ≠ s.player_entity) →
        (∀ ec, s.equipped x = some ec → ec.owner ≠ s.player_entity) →
        x ∉ (goto_next_level spawned s).entities) ∧
    (∀ x, x ∈ s.entities →
        ((∃ bp, s.backpack x = some bp ∧ bp.owner = s.player_entity) ∨
         (∃ ec, s.equipped x = some ec ∧ ec.owner = s.player_entity)) →
        x ∈ (goto_next_level spawned s).entities ∧
        (goto_next_level spawned s).backpack x = s.backpack x ∧
        (goto_next_level spawned s).equipped x = s.equipped x) ∧
    (goto_next_level spawned s).combat_stats s.player_entity =
      some ⟨stats.max_hp, max stats.hp (Int.tdiv stats.max_hp 2)⟩ ∧
    stats.hp ≤ max stats.hp (Int.tdiv stats.max_hp 2) := by
  refine ⟨?_, ?_, goto_combat_player hcs, le_max_left _ _⟩
  · intro x hx hxp hbp hec
    have hkept : keptOnLevelChange s x = false := by
      unfold keptOnLevelChange
      have h1 : s.playerComp x = false := by
        cases h : s.playerComp x with
        | false => rfl
        | true => exact absurd ((hpc x).mp h) hxp
      rw [h1]
      cases hb : s.backpack x with
      | none =>
        cases he : s.equipped x with
        | none => rfl
        | some ec => simp [beq_eq_false_iff_ne.mpr (hec ec he)]
      | some bp =>
        cases he : s.equipped x with
        | none => simp [beq_eq_false_iff_ne.mpr (hbp bp hb)]
        | some ec =>
          simp [beq_eq_false_iff_ne.mpr (hbp bp hb),
            beq_eq_false_iff_ne.mpr (hec ec he)]
    have hdel : x ∈ entities_to_remove_on_level_change s := by
      unfold entities_to_remove_on_level_change
      rw [List.mem_filter]
      exact ⟨hx, by rw [hkept]; rfl⟩
    rw [goto_entities]
    intro hmem
    rcases List.mem_append.mp hmem with hin | hsp
    · obtain ⟨_, hcond⟩ := List.mem_filter.mp hin
      rw [Bool.not_eq_true', ← Bool.not_eq_true] at hcond
      exact hcond (List.elem_iff.mpr hdel)
    · exact hfresh x hx hsp
  · intro x hx howned
    have hkept : keptOnLevelChange s x = true := by
      unfold keptOnLevelChange
      rcases howned with ⟨bp, hb, ho⟩ | ⟨ec, he, ho⟩
      · rw [hb]
        simp [ho]
      · rw [he]
        simp [ho]
    have hndel : x ∉ entities_to_remove_on_level_change s := by
      unfold entities_to_remove_on_level_change
      rw [List.mem_filter]
      rintro ⟨_, hcond⟩
      rw [hkept] at hcond
      exact Bool.noConfusion hcond
    refine ⟨?_, by rw [goto_backpack], by rw [goto_equipped]⟩
    rw [goto_entities]
    refine List.mem_append.mpr (Or.inl (List.mem_filter.mpr ⟨hx, ?_⟩))
    rw [Bool.not_eq_true']
    exact Bool.not_eq_true _ ▸ (fun hc => hndel (List.elem_iff.mp hc))

/-- A level transition at player entity 0 (hp 3/20) carrying backpack item 1
and equipped item 2, with a monster entity 3 present; the spawner creates the
fresh entity 9. -/
def sC6 : LState :=
  { player_entity := 0
    entities := [0, 1, 2, 3]
    playerComp := fun x => x == 0
    backpack := fun x => if x = 1 then some ⟨0⟩ else none
    equipped := fun x => if x = 2 then some ⟨0, 0⟩ else none
    combat_stats := fun x => if x = 0 then some ⟨20, 3⟩ else none
    gamelog := [] }

theorem level_transition_spec_witness :
    3 ∉ (goto_next_level [9] sC6).entities ∧
    1 ∈ (goto_next_level [9] sC6).entities ∧
    (goto_next_level [9] sC6).backpack 1 = some ⟨0⟩ ∧
    (goto_next_level [9] sC6).combat_stats 0 = some ⟨20, 10⟩ := by
  obtain ⟨h1, h2, h3, _⟩ := @level_transition_spec sC6 [9] ⟨20, 3⟩
    (by intro x; simp [sC6]) (by decide) rfl
  have hm := h2 1 (by decide) (Or.inl ⟨⟨0⟩, rfl, rfl⟩)
  refine ⟨h1 3 (by decide) (by decide) ?_ ?_, hm.1, ?_, ?_⟩
  · intro bp hbp
    simp [sC6] at hbp
  · intro ec hec
    simp [sC6] at hec
  · rw [hm.2.1]
    rfl
  · rw [show (0 : Nat) = sC6.player_entity from rfl, h3]
    decide
